import Mathlib

/-! fileserver: configuration validation and plugin lifecycle.

A shallow embedding of `config.go` and `plugin.go`.

* Go pointers to `VirtualHostCfg` are addresses (`Nat`) into a heap of host
  objects; the nil pointer is `none`.  `Config.Valid` writes through these
  pointers, so two slice entries holding the same address share one object.
* A Go slice is `Option (List _)`; the nil slice is `none`.
* A Go `error` is `Option GoError`; the nil error is `none`.
* An `*errors.Error` is a value with its fields `Op`, `Kind` and `Err`; `errors.E`
  builds it as the `errors` package does, pulling up the kind of a wrapped
  `*errors.Error`.
* The pattern rules of `http.ServeMux` that differ between Go releases are a
  parameter of `Serve`.
-/

namespace Fileserver

/-! ## Errors and panics -/

/-- Error kinds of the `errors` package: the zero kind `Undefined`, the kind
`Disabled` that `plugin.go` uses, and the remaining kinds by their number. -/
inductive Kind where
  | Undefined
  | Disabled
  | other (code : Nat)
  deriving DecidableEq, Repr

/-- Non-nil Go error values. -/
inductive GoError where
  /-- The value `errors.Str(msg)`. -/
  | Str (msg : String)
  /-- A package-level error value of another package, identified by its message. -/
  | sentinel (msg : String)
  /-- An `*errors.Error` with the fields `Op` and `Kind` and a nil `Err`; it is the
  value of `errors.E(op, kind)`. -/
  | EKind (op : String) (kind : Kind)
  /-- An `*errors.Error` with the fields `Op`, `Kind` and the non-nil `Err`. -/
  | Wrap (op : String) (kind : Kind) (err : GoError)
  deriving DecidableEq, Repr

/-- The call `errors.E(op, err)` for a non-nil error `err`.  When `err` is itself an
`*errors.Error`, `errors.E` stores a copy of it, takes over its kind and clears the
kind of the copy; any other error is stored as it is under the kind `Undefined`. -/
def GoError.E (op : String) : GoError → GoError
  | .EKind op1 k1 => .Wrap op k1 (.EKind op1 .Undefined)
  | .Wrap op1 k1 e1 => .Wrap op k1 (.Wrap op1 .Undefined e1)
  | .Str msg => .Wrap op .Undefined (.Str msg)
  | .sentinel msg => .Wrap op .Undefined (.sentinel msg)

/-- An error with the kind of an `*errors.Error` cleared, as `errors.E` leaves the
copy it stores. -/
def GoError.clearKind : GoError → GoError
  | .Str msg => .Str msg
  | .sentinel msg => .sentinel msg
  | .EKind op _ => .EKind op .Undefined
  | .Wrap op _ e => .Wrap op .Undefined e

/-- The operation tag recorded by `errors.E`, when the error carries one. -/
def GoError.op : GoError → Option String
  | .Str _ => none
  | .sentinel _ => none
  | .EKind op _ => some op
  | .Wrap op _ _ => some op

/-- The field `Kind` of an `*errors.Error`; other errors have no kind. -/
def GoError.kind : GoError → Kind
  | .Str _ => .Undefined
  | .sentinel _ => .Undefined
  | .EKind _ k => k
  | .Wrap _ k _ => k

/-- The field `Err` of an `*errors.Error`: the error it wraps, if any. -/
def GoError.err : GoError → Option GoError
  | .Str _ => none
  | .sentinel _ => none
  | .EKind _ _ => none
  | .Wrap _ _ e => some e

/-- Run-time panics that the modelled code can raise. -/
inductive Panic where
  /-- Dereference of a nil pointer. -/
  | nilDeref
  /-- The panic of `ServeMux.Handle` on the empty pattern. -/
  | muxInvalidPattern
  /-- The panic of `ServeMux.Handle` on a pattern that is already registered. -/
  | muxMultipleRegistrations (pattern : String)
  /-- The panic of `ServeMux.Handle` on a pattern that the Go release in use does not
  accept: one that does not parse, or one in conflict with a registered pattern. -/
  | muxRejected (pattern : String)
  deriving DecidableEq, Repr

/-- How a call of a function with result type `error` ends. -/
inductive Outcome where
  | returned (err : Option GoError)
  | panicked (p : Panic)
  deriving DecidableEq, Repr

/-! ## config.go -/

/-- The struct `MimeTypeCfg`. -/
structure MimeTypeCfg where
  Ext : String
  MimeType : String
  deriving DecidableEq, Repr

/-- The struct `VirtualHostCfg`. -/
structure VirtualHostCfg where
  Prefix : String
  Root : String
  deriving DecidableEq, Repr

/-- Memory holding the `VirtualHostCfg` objects, by address. -/
abbrev Heap := Nat → VirtualHostCfg

/-- The struct `Config`.  Durations are carried as integers (nanoseconds). -/
structure Config where
  Address : String
  ReadTimeout : Int
  WriteTimeout : Int
  IdleTimeout : Int
  MimeTypes : Option (List (Option MimeTypeCfg))
  VirtualHosts : Option (List (Option Nat))
  deriving DecidableEq, Repr

/-- The constant `op` of `Config.Valid`. -/
def validOp : String := "static_validation"

/-- The value `errors.E(op, errors.Str("empty address"))`. -/
def errEmptyAddress : GoError := .E validOp (.Str "empty address")

/-- The value `errors.E(op, errors.Str("no configuration to serve"))`. -/
def errNoConfiguration : GoError := .E validOp (.Str "no configuration to serve")

/-- The value `errors.E(op, errors.Str("empty prefix"))`. -/
def errEmptyPrefix : GoError := .E validOp (.Str "empty prefix")

/-- The loop `for i := 0; i < len(c.VirtualHosts); i++` of `Config.Valid`, over the
entries not yet visited.  Reading a field through a nil entry panics. -/
def validLoop : List (Option Nat) → Heap → Outcome × Heap
  | [], h => (.returned none, h)
  | none :: _, h => (.panicked .nilDeref, h)
  | some a :: rest, h =>
    if (h a).Prefix = "" then
      (.returned (some errEmptyPrefix), h)
    else if (h a).Root = "" then
      validLoop rest (Function.update h a { h a with Root := "." })
    else
      validLoop rest h

/-- What a call of `Config.Valid` leaves behind: how it ended, the receiver struct
and the memory of host objects. -/
structure ValidResult where
  out : Outcome
  cfg : Config
  heap : Heap

/-- The method `func (c *Config) Valid() error`. -/
def Config.Valid (c : Config) (h : Heap) : ValidResult :=
  if c.Address = "" then
    ⟨.returned (some errEmptyAddress), c, h⟩
  else
    match c.VirtualHosts with
    | none => ⟨.returned (some errNoConfiguration), c, h⟩
    | some vhs => ⟨(validLoop vhs h).1, c, (validLoop vhs h).2⟩

/-- The host object an entry of the virtual-host slice points to (nil gives none). -/
def deref (h : Heap) : Option Nat → Option VirtualHostCfg
  | none => none
  | some a => some (h a)

/-- The virtual hosts of a config as seen through the heap, in slice order. -/
def Config.hosts (c : Config) (h : Heap) : Option (List (Option VirtualHostCfg)) :=
  c.VirtualHosts.map (List.map (deref h))

/-! ## plugin.go: the plugin and `Init` -/

/-- The constant `pluginName`. -/
def pluginName : String := "fileserver"

/-- A `*zap.Logger` value, identified by the name it was created with. -/
structure ZapLogger where
  name : String
  deriving DecidableEq, Repr

/-- The interface `Logger`; the pointer it hands out may be nil. -/
structure Logger where
  NamedLogger : String → Option ZapLogger

/-- What a call `UnmarshalKey(name, &p.config)` leaves behind: the error returned,
the pointer now stored in the target, and the memory of host objects. -/
structure Unmarshalled where
  err : Option GoError
  out : Option Config
  heap : Heap

/-- The interface `Configurer`.  `UnmarshalKey` receives the key, the current
content of its target and the memory of host objects. -/
structure Configurer where
  UnmarshalKey : String → Option Config → Heap → Unmarshalled
  Has : String → Bool

/-- The handler `http.StripPrefix(strip, http.FileServer(http.Dir(root)))`. -/
structure Handler where
  strip : String
  root : String
  deriving DecidableEq, Repr

/-- An `http.ServeMux`: the registered patterns with their handlers, in
registration order. -/
structure ServeMux where
  entries : List (String × Handler)
  deriving DecidableEq, Repr

/-- An `http.Server` as built by `Serve`. -/
structure Server where
  ReadTimeout : Int
  WriteTimeout : Int
  IdleTimeout : Int
  Addr : String
  Handler : ServeMux
  deriving DecidableEq, Repr

/-- The struct `Plugin`: the embedded mutex (held or free), the config pointer, the
logger pointer and the server pointer. -/
structure Plugin where
  locked : Bool
  config : Option Config
  log : Option ZapLogger
  app : Option Server
  deriving DecidableEq, Repr

/-- Calls made on the interfaces handed to `Init`. -/
inductive Call where
  | Has (name : String)
  | UnmarshalKey (name : String)
  | NamedLogger (name : String)
  deriving DecidableEq, Repr

/-- What a call of `Plugin.Init` leaves behind: the error returned, the plugin, the
memory of host objects and the interface calls made, in order. -/
structure InitResult where
  err : Option GoError
  plugin : Plugin
  heap : Heap
  calls : List Call

/-- The constant `op` of `Plugin.Init`. -/
def initOp : String := "file_server_init"

/-- The method `func (p *Plugin) Init(cfg Configurer, log Logger) error`. -/
def Plugin.Init (p : Plugin) (cfg : Configurer) (log : Logger) (h : Heap) : InitResult :=
  if !cfg.Has pluginName then
    ⟨some (.EKind initOp .Disabled), p, h, [.Has pluginName]⟩
  else
    let r := cfg.UnmarshalKey pluginName p.config h
    match r.err with
    | some e =>
      ⟨some (.E initOp e), { p with config := r.out }, r.heap,
        [.Has pluginName, .UnmarshalKey pluginName]⟩
    | none =>
      ⟨none, { p with config := r.out, log := log.NamedLogger pluginName }, r.heap,
        [.Has pluginName, .UnmarshalKey pluginName, .NamedLogger pluginName]⟩

/-! ## plugin.go: `Serve` -/

/-- How a computation that may panic ends. -/
inductive Run (α : Type) where
  | ok (a : α)
  | panic (p : Panic)
  deriving DecidableEq, Repr

/-- A message written through the plugin's logger. -/
structure LogEntry where
  level : String
  msg : String
  fields : List (String × String)
  deriving DecidableEq, Repr

/-- The pattern rules of `http.ServeMux` that depend on the Go release: whether a
non-empty pattern that is not registered yet is accepted, given the patterns
registered so far.  Up to Go 1.21 every such pattern is accepted; from Go 1.22 on a
pattern must parse and must not conflict with a registered one. -/
abbrev MuxRules := List String → String → Bool

/-- The rules of `http.ServeMux` up to Go 1.21. -/
def muxRulesGo121 : MuxRules := fun _ _ => true

/-- The method `(*http.ServeMux).Handle` of the standard library.  In every Go
release it panics on the empty pattern and on a pattern string that is already
registered; whether any other pattern is accepted is decided by `rules`. -/
def ServeMux.Handle (rules : MuxRules) (mux : ServeMux) (pattern : String) (hd : Handler) :
    Run ServeMux :=
  if pattern = "" then .panic .muxInvalidPattern
  else if pattern ∈ mux.entries.map Prod.fst then .panic (.muxMultipleRegistrations pattern)
  else if rules (mux.entries.map Prod.fst) pattern = false then .panic (.muxRejected pattern)
  else .ok ⟨mux.entries ++ [(pattern, hd)]⟩

/-- The loop `for _, cfg := range p.config.MimeTypes` of `Serve`.  The function
`addExt` stands for `mime.AddExtensionType`; a failed registration is logged through
`p.log`, and logging through a nil logger panics. -/
def registerMimeTypes (addExt : String → String → Option GoError) (log : Option ZapLogger) :
    List (Option MimeTypeCfg) → List LogEntry → List LogEntry × Option Panic
  | [], logs => (logs, none)
  | none :: _, logs => (logs, some .nilDeref)
  | some m :: rest, logs =>
    match addExt m.Ext m.MimeType with
    | none => registerMimeTypes addExt log rest logs
    | some _ =>
      match log with
      | none => (logs, some .nilDeref)
      | some _ =>
        registerMimeTypes addExt log rest
          (logs ++ [⟨"error", "failed to register mime type",
            [("ext", m.Ext), ("mime-type", m.MimeType)]⟩])

/-- The loop `for _, cfg := range p.config.VirtualHosts` of `Serve`. -/
def registerHosts (rules : MuxRules) (h : Heap) :
    List (Option Nat) → ServeMux → Run ServeMux
  | [], mux => .ok mux
  | none :: _, _ => .panic .nilDeref
  | some a :: rest, mux =>
    match mux.Handle rules (h a).Prefix ⟨(h a).Prefix, (h a).Root⟩ with
    | .panic pn => .panic pn
    | .ok mux1 => registerHosts rules h rest mux1

/-- How the part of `Serve` that runs in the caller ends: waiting for the mutex,
panicking (the plugin as the panic leaves it), or returning the channel after the
goroutine was started (the plugin as `Serve` leaves it, mutex still held). -/
inductive ServeResult where
  | blocked
  | panicked (pn : Panic) (p : Plugin) (logs : List LogEntry)
  | started (p : Plugin) (logs : List LogEntry)
  deriving DecidableEq, Repr

/-- The method `func (p *Plugin) Serve() chan error`, up to the `go` statement. -/
def Plugin.Serve (rules : MuxRules) (addExt : String → String → Option GoError)
    (p : Plugin) (h : Heap) : ServeResult :=
  if p.locked then .blocked
  else
    let p1 := { p with locked := true }
    match p.config with
    | none => .panicked .nilDeref p1 []
    | some c =>
      match registerMimeTypes addExt p.log (c.MimeTypes.getD []) [] with
      | (logs, some pn) => .panicked pn p1 logs
      | (logs, none) =>
        match registerHosts rules h (c.VirtualHosts.getD []) ⟨[]⟩ with
        | .panic pn => .panicked pn p1 logs
        | .ok mux =>
          .started { p1 with app := some ⟨c.ReadTimeout, c.WriteTimeout, c.IdleTimeout,
            c.Address, mux⟩ } logs

/-- What the goroutine started by `Serve` leaves behind: the plugin, the messages
logged and the values sent on the channel `errCh`, in order. -/
structure ServeLoop where
  plugin : Plugin
  logs : List LogEntry
  sent : List GoError
  deriving DecidableEq, Repr

/-- The goroutine started by `Serve`, given the value `listenAndServe` that
`p.app.ListenAndServe()` returns: it releases the mutex, logs the start, and sends
the returned error on `errCh` when it is non-nil. -/
def serveGoroutine (p : Plugin) (listenAndServe : Option GoError) : Run ServeLoop :=
  match p.config, p.log, p.app with
  | some c, some _, some _ =>
    let logs := [⟨"info", "file server started", [("address", c.Address)]⟩]
    match listenAndServe with
    | some err => .ok ⟨{ p with locked := false }, logs, [err]⟩
    | none => .ok ⟨{ p with locked := false }, logs, []⟩
  | _, _, _ => .panic .nilDeref

/-- The error value `http.ErrServerClosed`, which `ListenAndServe` returns after
`Shutdown`. -/
def ErrServerClosed : GoError := .sentinel "http: Server closed"

/-! ## plugin.go: `Stop` -/

/-- The case of the `select` statement of `Stop` that was taken. -/
inductive SelectCase where
  | ctxDone
  | errCh
  | endCh
  deriving DecidableEq, Repr

/-- The return of `Stop`: the case taken and the value returned. -/
structure StopReturn where
  taken : SelectCase
  value : Option GoError
  deriving DecidableEq, Repr

/-- Where the goroutine started by `Stop` stands: before `p.Lock()`, inside
`p.app.Shutdown(ctx)` with the mutex held, returned, or panicked. -/
inductive GoroutinePc where
  | waiting
  | shuttingDown
  | finished
  | panicked
  deriving DecidableEq, Repr

/-- The state of one call of `Stop`.  The field `ctxErr` is the value of `ctx.Err()`:
nil until `ctx.Done()` is closed and non-nil from then on, as the `context.Context`
interface requires.  The field `mutexHeld` says that a goroutine other than the one
started by `Stop` holds the mutex of the plugin, `appNil` that `p.app` is nil.  The
field `shutdown` is the value returned by `p.app.Shutdown(ctx)` once it has returned;
`errCh` and `endCh` are the two channels of capacity one; `ret` is the return of
`Stop` once it has returned. -/
structure StopState where
  ctxErr : Option GoError
  mutexHeld : Bool
  appNil : Bool
  pc : GoroutinePc
  shutdown : Option (Option GoError)
  errCh : Option GoError
  endCh : Bool
  ret : Option StopReturn
  deriving DecidableEq, Repr

/-- The events of a call of `Stop`: the context is cancelled or passes its deadline
with error `e`; the goroutine holding the mutex releases it; the goroutine of `Stop`
acquires the mutex; `Shutdown` panics on the nil server; `Shutdown` returns `r` and
the goroutine sends on its channel and returns; the `select` takes one of its cases. -/
inductive Event where
  | ctxExpires (e : GoError)
  | mutexReleased
  | lock
  | shutdownPanics
  | shutdownReturns (r : Option GoError)
  | selectCtx
  | selectErr
  | selectEnd
  deriving DecidableEq, Repr

/-- The state in which `Stop` starts: both channels empty, the goroutine before
`p.Lock()`. -/
def stopStart (ctxErr : Option GoError) (mutexHeld appNil : Bool) : StopState :=
  ⟨ctxErr, mutexHeld, appNil, .waiting, none, none, false, none⟩

/-- One event of a call of `Stop`; `none` when the event cannot happen in the state.
A `select` case can be taken when its channel is ready, which of the ready cases is
taken is not determined.  A panic of the goroutine ends the process. -/
def stopStep (s : StopState) : Event → Option StopState
  | .ctxExpires e =>
    if s.pc ≠ .panicked ∧ s.ctxErr = none then some { s with ctxErr := some e } else none
  | .mutexReleased =>
    if s.pc ≠ .panicked ∧ s.mutexHeld = true then some { s with mutexHeld := false } else none
  | .lock =>
    if s.pc = .waiting ∧ s.mutexHeld = false then some { s with pc := .shuttingDown } else none
  | .shutdownPanics =>
    if s.pc = .shuttingDown ∧ s.appNil = true then some { s with pc := .panicked } else none
  | .shutdownReturns r =>
    if s.pc = .shuttingDown ∧ s.appNil = false then
      match r with
      | some err => some { s with pc := .finished, shutdown := some r, errCh := some err }
      | none => some { s with pc := .finished, shutdown := some r, endCh := true }
    else none
  | .selectCtx =>
    if s.pc ≠ .panicked ∧ s.ret = none then
      match s.ctxErr with
      | some e => some { s with ret := some ⟨.ctxDone, some e⟩ }
      | none => none
    else none
  | .selectErr =>
    if s.pc ≠ .panicked ∧ s.ret = none then
      match s.errCh with
      | some e => some { s with ret := some ⟨.errCh, some e⟩, errCh := none }
      | none => none
    else none
  | .selectEnd =>
    if s.pc ≠ .panicked ∧ s.ret = none ∧ s.endCh = true then
      some { s with ret := some ⟨.endCh, none⟩, endCh := false }
    else none

/-- A sequence of events from a state; `none` when some event cannot happen. -/
def stopRun : StopState → List Event → Option StopState
  | s, [] => some s
  | s, ev :: rest =>
    match stopStep s ev with
    | none => none
    | some s1 => stopRun s1 rest

/-- The method `func (p *Plugin) Stop(ctx context.Context) error` under a schedule
of events: `ctxErr` is `ctx.Err()` at the time of the call. -/
def Plugin.Stop (p : Plugin) (ctxErr : Option GoError) (sched : List Event) : Option StopState :=
  stopRun (stopStart ctxErr p.locked (decide (p.app = none))) sched

/-- The error value `context.Canceled`. -/
def ctxCanceled : GoError := .sentinel "context canceled"

/-- What holds in every state of a call of `Stop`. -/
def StopInv (s : StopState) : Prop :=
  (s.pc ≠ .finished → s.shutdown = none) ∧
  (∀ x, s.errCh = some x → s.shutdown = some (some x)) ∧
  (s.endCh = true → s.shutdown = some none) ∧
  (∀ r, s.ret = some r →
    (r.taken = .ctxDone → r.value ≠ none ∧ s.ctxErr = r.value) ∧
    (r.taken = .errCh → ∃ x, r.value = some x ∧ s.shutdown = some (some x)) ∧
    (r.taken = .endCh → r.value = none ∧ s.shutdown = some none))

/-! ### Auxiliary notions for the validation proofs -/

/-- A host with its root defaulted: `"."` in place of the empty root. -/
def defaultRoot (v : VirtualHostCfg) : VirtualHostCfg :=
  if v.Root = "" then { v with Root := "." } else v

/-- An entry passes the loop body: it is non-nil and its prefix is non-empty. -/
def passes (h : Heap) : Option Nat → Bool
  | none => false
  | some a => decide ((h a).Prefix ≠ "")

/-- The heap after the loop body ran on exactly the entries `done`. -/
def normOn (done : List (Option Nat)) (h : Heap) : Heap :=
  fun b => if some b ∈ done then defaultRoot (h b) else h b

/-! ### Concrete configs, heaps and plugins used in the examples below -/

/-- A config with two distinct hosts, the second with an empty prefix. -/
def cfgTwoHosts : Config := ⟨":8080", 0, 0, 0, none, some [some 0, some 1]⟩

/-- A heap holding the host `/a/` (empty root) at address 0 and hosts with empty
prefix and root `x` elsewhere. -/
def heapTwoHosts : Heap := fun n => if n = 0 then ⟨"/a/", ""⟩ else ⟨"", "x"⟩

/-- A config with a listen address and a present but empty virtual-host list. -/
def cfgEmptyList : Config := ⟨":8080", 0, 0, 0, none, some []⟩

/-- A heap in which every host object has prefix `/` and root `.`. -/
def heapConst : Heap := fun _ => ⟨"/", "."⟩

/-- A config with three entries, the first and the last pointing to the same host. -/
def cfgShared : Config := ⟨":8080", 0, 0, 0, none, some [some 0, some 1, some 0]⟩

/-- A heap holding the host `/a/` (empty root) at address 0 and the host `/b/` with
root `pub` elsewhere. -/
def heapValid : Heap := fun n => if n = 0 then ⟨"/a/", ""⟩ else ⟨"/b/", "pub"⟩

/-- A heap holding the host `/a/` (empty root) at address 0 and hosts with empty
prefix and empty root elsewhere. -/
def heapShared : Heap := fun n => if n = 0 then ⟨"/a/", ""⟩ else ⟨"", ""⟩

/-- A heap holding the host `/a/` with root `pub` at address 0 and hosts with empty
prefix and empty root elsewhere. -/
def heapRooted : Heap := fun n => if n = 0 then ⟨"/a/", "pub"⟩ else ⟨"", ""⟩

/-- A plugin as declared, before `Init`: mutex free, no config, logger or server. -/
def freshPlugin : Plugin := ⟨false, none, none, none⟩

/-- A logger source handing out a logger carrying the requested name. -/
def namingLogger : Logger := ⟨fun n => some ⟨n⟩⟩

/-- A configuration source in which every section is present and decodes without
error to the config `c`, with host objects as in `hp`. -/
def sourceOf (c : Config) (hp : Heap) : Configurer :=
  ⟨fun _ _ _ => ⟨none, some c, hp⟩, fun _ => true⟩

/-- A config with an empty Address. -/
def cfgNoAddress : Config := ⟨"", 0, 0, 0, none, some [some 0]⟩

/-- A config with a nil virtual-host list. -/
def cfgNilHosts : Config := ⟨":8080", 0, 0, 0, none, none⟩

/-- A configuration source without any section. -/
def sourceEmpty : Configurer := ⟨fun _ o hp => ⟨none, o, hp⟩, fun _ => false⟩

/-- A configuration source whose section is present and fails to decode. -/
def sourceBroken : Configurer :=
  ⟨fun _ o hp => ⟨some (.Str "cannot decode"), o, hp⟩, fun _ => true⟩

/-- A configuration source whose section is present and whose decoding fails with
an `*errors.Error` of kind `Disabled`, as built by
`errors.E(errors.Op("config_unmarshal"), errors.Disabled)`. -/
def sourceDisabledDecode : Configurer :=
  ⟨fun _ o hp => ⟨some (.EKind "config_unmarshal" .Disabled), o, hp⟩, fun _ => true⟩

/-- A mime registration that accepts every extension. -/
def addExtOk : String → String → Option GoError := fun _ _ => none

/-- A heap holding the host `/a/` with root `pub` at address 0 and the host `/b/`
with root `www` elsewhere. -/
def heapServed : Heap := fun n => if n = 0 then ⟨"/a/", "pub"⟩ else ⟨"/b/", "www"⟩

/-- A plugin after a successful `Init` with the two-host config. -/
def pluginReady : Plugin := ⟨false, some cfgTwoHosts, some ⟨"fileserver"⟩, none⟩

/-- The plugin as `Serve` leaves it for `pluginReady` over `heapServed`. -/
def pluginServing : Plugin :=
  ⟨true, some cfgTwoHosts, some ⟨"fileserver"⟩,
    some ⟨0, 0, 0, ":8080", ⟨[("/a/", ⟨"/a/", "pub"⟩), ("/b/", ⟨"/b/", "www"⟩)]⟩⟩⟩

/-- A heap holding the host `/p/` with root `rootX` at address 0 and the host `/p/`
with root `rootY` elsewhere. -/
def heapDup : Heap := fun n => if n = 0 then ⟨"/p/", "rootX"⟩ else ⟨"/p/", "rootY"⟩

/-- The plugin while the server runs: as `Serve` left it, the mutex released by the
goroutine of `Serve`. -/
def pluginRunning : Plugin :=
  ⟨false, some cfgTwoHosts, some ⟨"fileserver"⟩,
    some ⟨0, 0, 0, ":8080", ⟨[("/a/", ⟨"/a/", "pub"⟩), ("/b/", ⟨"/b/", "www"⟩)]⟩⟩⟩

/-! ### Lemmas on the validation loop -/

theorem defaultRoot_Prefix (v : VirtualHostCfg) : (defaultRoot v).Prefix = v.Prefix := by
  unfold defaultRoot
  split <;> rfl

theorem defaultRoot_Root (v : VirtualHostCfg) :
    (defaultRoot v).Root = if v.Root = "" then "." else v.Root := by
  unfold defaultRoot
  split <;> simp_all

theorem defaultRoot_idem (v : VirtualHostCfg) : defaultRoot (defaultRoot v) = defaultRoot v := by
  unfold defaultRoot
  split <;> simp_all

theorem defaultRoot_of_ne (v : VirtualHostCfg) (hv : v.Root ≠ "") : defaultRoot v = v := by
  unfold defaultRoot
  simp [hv]

/-- One pass of the loop body on a passing entry stores the defaulted host. -/
theorem validLoop_cons_pass (a : Nat) (rest : List (Option Nat)) (h : Heap)
    (hp : (h a).Prefix ≠ "") :
    validLoop (some a :: rest) h = validLoop rest (Function.update h a (defaultRoot (h a))) := by
  by_cases hr : (h a).Root = ""
  · simp [validLoop, hp, hr, defaultRoot]
  · simp [validLoop, hp, hr, defaultRoot_of_ne]

theorem passes_update (h : Heap) (a : Nat) (p : Option Nat) :
    passes (Function.update h a (defaultRoot (h a))) p = passes h p := by
  cases p with
  | none => rfl
  | some b =>
    by_cases hb : b = a
    · subst hb
      simp [passes, defaultRoot_Prefix]
    · simp [passes, Function.update_noteq hb]

theorem normOn_nil (h : Heap) : normOn [] h = h := by
  funext b
  simp [normOn]

theorem normOn_cons_update (a : Nat) (done : List (Option Nat)) (h : Heap) :
    normOn done (Function.update h a (defaultRoot (h a))) = normOn (some a :: done) h := by
  funext b
  by_cases hb : b = a
  · subst hb
    by_cases hm : some b ∈ done <;> simp [normOn, hm, defaultRoot_idem]
  · have hne : (some b : Option Nat) ≠ some a := fun hh => hb (Option.some.inj hh)
    by_cases hm : some b ∈ done <;> simp [normOn, hm, Function.update_noteq hb, hne]

/-- The loop runs through a block of passing entries, defaulting their roots, and
continues on what follows. -/
theorem validLoop_append (pre suf : List (Option Nat)) (h : Heap)
    (hpre : ∀ p ∈ pre, passes h p = true) :
    validLoop (pre ++ suf) h = validLoop suf (normOn pre h) := by
  induction pre generalizing h with
  | nil => simp [normOn_nil]
  | cons p pre ih =>
    cases p with
    | none =>
      have := hpre none (List.mem_cons_self _ _)
      simp [passes] at this
    | some a =>
      have hp : (h a).Prefix ≠ "" := by
        have := hpre (some a) (List.mem_cons_self _ _)
        simpa [passes] using this
      rw [List.cons_append, validLoop_cons_pass a _ h hp, ih, normOn_cons_update]
      intro q hq
      rw [passes_update]
      exact hpre q (List.mem_cons_of_mem _ hq)

/-- When every entry passes, the loop ends normally with all roots defaulted. -/
theorem validLoop_all_pass (l : List (Option Nat)) (h : Heap)
    (hl : ∀ p ∈ l, passes h p = true) :
    validLoop l h = (.returned none, normOn l h) := by
  have := validLoop_append l [] h hl
  simpa [validLoop] using this

/-- When the loop ends normally, every entry passed. -/
theorem passes_of_validLoop_ok (l : List (Option Nat)) (h : Heap)
    (hok : (validLoop l h).1 = .returned none) : ∀ p ∈ l, passes h p = true := by
  induction l generalizing h with
  | nil => simp
  | cons p l ih =>
    cases p with
    | none => simp [validLoop] at hok
    | some a =>
      by_cases hp : (h a).Prefix = ""
      · simp [validLoop, hp] at hok
      · rw [validLoop_cons_pass a l h hp] at hok
        intro q hq
        rcases List.mem_cons.mp hq with rfl | hq
        · simp [passes, hp]
        · have := ih _ hok q hq
          rwa [passes_update] at this

/-- The loop stops with the empty-prefix error at the first entry whose prefix is
empty, after defaulting the roots of the entries before it. -/
theorem validLoop_stop (pre suf : List (Option Nat)) (a : Nat) (h : Heap)
    (hpre : ∀ p ∈ pre, passes h p = true) (ha : (h a).Prefix = "") :
    validLoop (pre ++ some a :: suf) h = (.returned (some errEmptyPrefix), normOn pre h) := by
  rw [validLoop_append pre _ h hpre]
  have hn : (normOn pre h a).Prefix = "" := by
    unfold normOn
    split
    · rw [defaultRoot_Prefix]; exact ha
    · exact ha
  simp [validLoop, hn]

theorem validLoop_ne_noConfiguration (l : List (Option Nat)) (h : Heap) :
    (validLoop l h).1 ≠ .returned (some errNoConfiguration) := by
  induction l generalizing h with
  | nil => simp [validLoop]
  | cons p l ih =>
    cases p with
    | none => simp [validLoop]
    | some a =>
      by_cases hp : (h a).Prefix = ""
      · simp [validLoop, hp, errEmptyPrefix, errNoConfiguration, GoError.E]
      · rw [validLoop_cons_pass a l h hp]
        exact ih _

/-- With non-nil entries the loop returns the empty-prefix error exactly when some
entry has an empty prefix, and nil otherwise. -/
theorem validLoop_out_of_nonnil (l : List (Option Nat)) (h : Heap)
    (hnn : ∀ p ∈ l, p ≠ none) :
    ((∃ a, some a ∈ l ∧ (h a).Prefix = "") →
        (validLoop l h).1 = .returned (some errEmptyPrefix)) ∧
    ((¬ ∃ a, some a ∈ l ∧ (h a).Prefix = "") → (validLoop l h).1 = .returned none) := by
  induction l generalizing h with
  | nil => simp [validLoop]
  | cons p l ih =>
    cases p with
    | none => exact absurd rfl (hnn none (List.mem_cons_self _ _))
    | some a =>
      by_cases hp : (h a).Prefix = ""
      · constructor
        · intro _
          simp [validLoop, hp]
        · intro hno
          exact absurd ⟨a, List.mem_cons_self _ _, hp⟩ hno
      · rw [validLoop_cons_pass a l h hp]
        have ih2 := ih (Function.update h a (defaultRoot (h a)))
          (fun q hq => hnn q (List.mem_cons_of_mem _ hq))
        have key : ∀ b, ((Function.update h a (defaultRoot (h a))) b).Prefix = (h b).Prefix := by
          intro b
          by_cases hb : b = a
          · subst hb
            simp [defaultRoot_Prefix]
          · simp [Function.update_noteq hb]
        constructor
        · rintro ⟨b, hb, hbp⟩
          apply ih2.1
          rcases List.mem_cons.mp hb with hba | hb
          · cases hba
            exact absurd hbp hp
          · exact ⟨b, hb, by rw [key]; exact hbp⟩
        · intro hno
          apply ih2.2
          rintro ⟨b, hb, hbp⟩
          exact hno ⟨b, List.mem_cons_of_mem _ hb, by rw [key] at hbp; exact hbp⟩

/-! ### Claims on `Config.Valid` -/

/-- C1: for every config whose virtual-host entries are non-nil, the result of
`Config.Valid` is decided by the first failing check in a fixed order: an empty
Address gives the "empty address" error (whatever the virtual hosts are, nil entries
included); otherwise a nil VirtualHosts gives "no configuration to serve"; otherwise
the "empty prefix" error is returned if and only if some virtual host has an empty
Prefix; otherwise nil is returned.  Every error returned carries the op tag
"static_validation". -/
theorem Valid_first_failing_check (c : Config) (h : Heap) :
    (c.Address = "" →
      (c.Valid h).out = .returned (some (.E "static_validation" (.Str "empty address")))) ∧
    ((∀ vhs, c.VirtualHosts = some vhs → ∀ p ∈ vhs, p ≠ none) →
      (c.Address ≠ "" → c.VirtualHosts = none →
        (c.Valid h).out
          = .returned (some (.E "static_validation" (.Str "no configuration to serve")))) ∧
      (∀ vhs, c.Address ≠ "" → c.VirtualHosts = some vhs →
        (((c.Valid h).out = .returned (some (.E "static_validation" (.Str "empty prefix")))
            ↔ ∃ a, some a ∈ vhs ∧ (h a).Prefix = "") ∧
         ((¬ ∃ a, some a ∈ vhs ∧ (h a).Prefix = "") → (c.Valid h).out = .returned none))) ∧
      (∀ e, (c.Valid h).out = .returned (some e) → e.op = some "static_validation")) := by
  refine ⟨fun ha => by simp [Config.Valid, ha, errEmptyAddress, validOp], fun hnn => ?_⟩
  refine ⟨fun ha hv => by simp [Config.Valid, ha, hv, errNoConfiguration, validOp], ?_, ?_⟩
  · intro vhs ha hv
    have hl := validLoop_out_of_nonnil vhs h (hnn vhs hv)
    have hout : (c.Valid h).out = (validLoop vhs h).1 := by simp [Config.Valid, ha, hv]
    rw [hout]
    refine ⟨⟨fun he => ?_, fun hex => hl.1 hex⟩, hl.2⟩
    by_contra hno
    rw [hl.2 hno] at he
    simp at he
  · intro e he
    by_cases ha : c.Address = ""
    · simp [Config.Valid, ha] at he
      subst he
      rfl
    · cases hv : c.VirtualHosts with
      | none =>
        simp [Config.Valid, ha, hv] at he
        subst he
        rfl
      | some vhs =>
        have hl := validLoop_out_of_nonnil vhs h (hnn vhs hv)
        have hout : (c.Valid h).out = (validLoop vhs h).1 := by simp [Config.Valid, ha, hv]
        rw [hout] at he
        by_cases hex : ∃ a, some a ∈ vhs ∧ (h a).Prefix = ""
        · rw [hl.1 hex] at he
          simp at he
          subst he
          rfl
        · rw [hl.2 hex] at he
          simp at he

/-- C1 (witness): on a config with two non-nil hosts, the second with an empty prefix,
the hypothesis holds and the theorem yields the "empty prefix" error. -/
theorem Valid_first_failing_check_witness :
    (∀ vhs, cfgTwoHosts.VirtualHosts = some vhs → ∀ p ∈ vhs, p ≠ none) ∧
    (cfgTwoHosts.Valid heapTwoHosts).out
      = .returned (some (.E "static_validation" (.Str "empty prefix"))) :=
  have hnn : ∀ vhs, cfgTwoHosts.VirtualHosts = some vhs → ∀ p ∈ vhs, p ≠ none := by
    intro vhs hv p hp
    simp [cfgTwoHosts] at hv
    subst hv
    simp at hp
    rcases hp with rfl | rfl <;> simp
  ⟨hnn, ((((Valid_first_failing_check cfgTwoHosts heapTwoHosts).2 hnn).2.1
    [some 0, some 1] (by decide) rfl).1).mpr ⟨1, by simp, by simp [heapTwoHosts]⟩⟩

/-- C2 (counterexample): on a config with a non-empty Address and a present but
empty virtual-host list, `Config.Valid` returns nil, not the "no configuration to
serve" error it returns for the nil list. -/
theorem Valid_empty_list_returns_nil :
    cfgEmptyList.Address ≠ "" ∧ cfgEmptyList.VirtualHosts = some [] ∧
    (cfgEmptyList.Valid heapConst).out = .returned none ∧
    (cfgEmptyList.Valid heapConst).out
      ≠ .returned (some (.E "static_validation" (.Str "no configuration to serve"))) ∧
    ({ cfgEmptyList with VirtualHosts := none }.Valid heapConst).out
      = .returned (some (.E "static_validation" (.Str "no configuration to serve"))) := by
  refine ⟨by decide, rfl, by decide, by decide, by decide⟩

/-- C2 (amended): for every config with a non-empty Address, `Config.Valid` returns
the "no configuration to serve" error if and only if the virtual-host list is nil; on
a present but empty list it returns nil and leaves the config and the hosts as they
were. -/
theorem Valid_noConfiguration_iff_nil (c : Config) (h : Heap) (ha : c.Address ≠ "") :
    ((c.Valid h).out
        = .returned (some (.E "static_validation" (.Str "no configuration to serve")))
      ↔ c.VirtualHosts = none) ∧
    (c.VirtualHosts = some [] →
      (c.Valid h).out = .returned none ∧ (c.Valid h).cfg = c ∧ (c.Valid h).heap = h) := by
  constructor
  · constructor
    · intro he
      cases hv : c.VirtualHosts with
      | none => rfl
      | some vhs =>
        have hout : (c.Valid h).out = (validLoop vhs h).1 := by simp [Config.Valid, ha, hv]
        rw [hout] at he
        exact absurd he (validLoop_ne_noConfiguration vhs h)
    · intro hv
      simp [Config.Valid, ha, hv, errNoConfiguration, validOp]
  · intro hv
    simp [Config.Valid, ha, hv, validLoop]

/-- C2 (witness): the amended statement applied to the config with the empty list. -/
theorem Valid_noConfiguration_iff_nil_witness :
    cfgEmptyList.Address ≠ "" ∧ (cfgEmptyList.Valid heapConst).out = .returned none :=
  ⟨by decide,
   ((Valid_noConfiguration_iff_nil cfgEmptyList heapConst (by decide)).2 rfl).1⟩

/-- C3: for every config on which `Config.Valid` returns nil, the config struct is
unchanged (Address, the three timeouts, MimeTypes, and the virtual-host slice: the
same entries in the same order), every entry is a non-nil host, and each host has its
Prefix unchanged and its Root equal to "." if the Root was empty before the call and
to the previous Root otherwise. -/
theorem Valid_ok_post (c : Config) (h : Heap) (hok : (c.Valid h).out = .returned none) :
    (c.Valid h).cfg.Address = c.Address ∧
    (c.Valid h).cfg.ReadTimeout = c.ReadTimeout ∧
    (c.Valid h).cfg.WriteTimeout = c.WriteTimeout ∧
    (c.Valid h).cfg.IdleTimeout = c.IdleTimeout ∧
    (c.Valid h).cfg.MimeTypes = c.MimeTypes ∧
    ∃ vhs, c.VirtualHosts = some vhs ∧ (c.Valid h).cfg.VirtualHosts = some vhs ∧
      ∀ i, i < vhs.length → ∃ a, vhs[i]? = some (some a) ∧
        ((c.Valid h).heap a).Prefix = (h a).Prefix ∧
        ((c.Valid h).heap a).Root = if (h a).Root = "" then "." else (h a).Root := by
  by_cases ha : c.Address = ""
  · simp [Config.Valid, ha] at hok
  · cases hv : c.VirtualHosts with
    | none => simp [Config.Valid, ha, hv] at hok
    | some vhs =>
      have hout : (c.Valid h).out = (validLoop vhs h).1 := by simp [Config.Valid, ha, hv]
      have hcfg : (c.Valid h).cfg = c := by simp [Config.Valid, ha, hv]
      have hheap : (c.Valid h).heap = (validLoop vhs h).2 := by simp [Config.Valid, ha, hv]
      rw [hout] at hok
      have hall := passes_of_validLoop_ok vhs h hok
      rw [hcfg, hheap, validLoop_all_pass vhs h hall]
      refine ⟨rfl, rfl, rfl, rfl, rfl, vhs, rfl, hv, ?_⟩
      intro i hi
      have hmem : vhs[i] ∈ vhs := List.getElem_mem hi
      have hpass := hall _ hmem
      cases hvi : vhs[i] with
      | none => rw [hvi] at hpass; simp [passes] at hpass
      | some a =>
        refine ⟨a, ?_, ?_, ?_⟩
        · rw [List.getElem?_eq_getElem hi, hvi]
        · have : some a ∈ vhs := hvi ▸ hmem
          simp [normOn, this, defaultRoot_Prefix]
        · have : some a ∈ vhs := hvi ▸ hmem
          simp [normOn, this, defaultRoot_Root]

/-- C3 (witness): a config that validates, with one host entered twice; its empty
root reads "." afterwards. -/
theorem Valid_ok_post_witness :
    (cfgShared.Valid heapValid).out = .returned none ∧
    (cfgShared.Valid heapValid).cfg.Address = ":8080" :=
  ⟨by decide, (Valid_ok_post cfgShared heapValid (by decide)).1⟩

/-- Splitting the slice at the first entry whose prefix is empty. -/
theorem split_at_first_empty (vhs : List (Option Nat)) (h : Heap) (k a : Nat)
    (hbefore : ∀ i, i < k → ∃ b, vhs[i]? = some (some b) ∧ (h b).Prefix ≠ "")
    (hat : vhs[k]? = some (some a)) :
    vhs = vhs.take k ++ some a :: vhs.drop (k + 1) ∧ ∀ p ∈ vhs.take k, passes h p = true := by
  obtain ⟨hk, hka⟩ := List.getElem?_eq_some.mp hat
  constructor
  · conv_lhs => rw [← List.take_append_drop k vhs, List.drop_eq_getElem_cons hk, hka]
  · intro p hp
    obtain ⟨i, hi⟩ := List.mem_iff_getElem?.mp hp
    rw [List.getElem?_take] at hi
    by_cases hik : i < k
    · rw [if_pos hik] at hi
      obtain ⟨b, hb, hbp⟩ := hbefore i hik
      rw [hb] at hi
      cases hi
      simp [passes, hbp]
    · rw [if_neg hik] at hi
      cases hi

theorem defaultRoot_eq_self_iff (v : VirtualHostCfg) : defaultRoot v = v ↔ v.Root ≠ "" := by
  constructor
  · intro he hr
    have := congrArg VirtualHostCfg.Root he
    rw [defaultRoot_Root, if_pos hr, hr] at this
    exact absurd this (by decide)
  · exact defaultRoot_of_ne v

theorem normOn_eq_self_iff (done : List (Option Nat)) (h : Heap) :
    normOn done h = h ↔ ∀ b, some b ∈ done → (h b).Root ≠ "" := by
  constructor
  · intro he b hb
    have := congrFun he b
    simp only [normOn, if_pos hb] at this
    exact (defaultRoot_eq_self_iff _).mp this
  · intro hall
    funext b
    by_cases hb : some b ∈ done
    · simp only [normOn, if_pos hb]
      exact (defaultRoot_eq_self_iff _).mpr (hall b hb)
    · simp only [normOn, if_neg hb]

/-- C10 (counterexample): two inputs on which the claim as stated fails.
(1) The entries at index 0 and 2 are the same host and the first empty Prefix is at
index 1: the call fails with "empty prefix", yet the host at index 2 has its Root
rewritten to ".", so the hosts at index k and above are not all unchanged.
(2) Two distinct hosts, the first with Root `pub`, the first empty Prefix at index 1:
the call fails with "empty prefix" at k = 1, not 0, and the config and every host are
left exactly as they were. -/
theorem Valid_failure_claim_fails :
    (cfgShared.Address ≠ "" ∧
      cfgShared.hosts heapShared
        = some [some ⟨"/a/", ""⟩, some ⟨"", ""⟩, some ⟨"/a/", ""⟩] ∧
      (cfgShared.Valid heapShared).out
        = .returned (some (.E "static_validation" (.Str "empty prefix"))) ∧
      (cfgShared.Valid heapShared).cfg.hosts (cfgShared.Valid heapShared).heap
        = some [some ⟨"/a/", "."⟩, some ⟨"", ""⟩, some ⟨"/a/", "."⟩]) ∧
    (cfgTwoHosts.Address ≠ "" ∧
      cfgTwoHosts.hosts heapRooted = some [some ⟨"/a/", "pub"⟩, some ⟨"", ""⟩] ∧
      (cfgTwoHosts.Valid heapRooted).out
        = .returned (some (.E "static_validation" (.Str "empty prefix"))) ∧
      (cfgTwoHosts.Valid heapRooted).cfg = cfgTwoHosts ∧
      ∀ b, (cfgTwoHosts.Valid heapRooted).heap b = heapRooted b) := by
  refine ⟨⟨by decide, by decide, by decide, by decide⟩, by decide, by decide, by decide,
    by decide, fun b => ?_⟩
  simp [Config.Valid, cfgTwoHosts, validLoop, heapRooted]

/-- C10 (amended): `Config.Valid` is not atomic on failure.  When it fails with
"empty address" or "no configuration to serve", the config and all hosts are left as
they were.  For a config with non-empty Address and a non-nil virtual-host list whose
first empty Prefix is at index k, it returns the "empty prefix" error; the config
struct and its slice are unchanged and no Prefix changes; every host object entered
at an index below k has an empty Root rewritten to "." and a non-empty Root kept;
every host object not entered below k is unchanged (so a host at index k or above is
unchanged unless the same object is also entered below k); and everything is left
exactly as it was if and only if no host below k has an empty Root (in particular
when k = 0). -/
theorem Valid_failure_post (c : Config) (h : Heap) :
    ((c.Address = "" ∨ c.VirtualHosts = none) →
      (∃ e, (c.Valid h).out = .returned (some e)) ∧ (c.Valid h).cfg = c ∧
        (c.Valid h).heap = h) ∧
    (∀ (vhs : List (Option Nat)) (k a : Nat), c.Address ≠ "" → c.VirtualHosts = some vhs →
      (∀ i, i < k → ∃ b, vhs[i]? = some (some b) ∧ (h b).Prefix ≠ "") →
      vhs[k]? = some (some a) → (h a).Prefix = "" →
      (c.Valid h).out = .returned (some (.E "static_validation" (.Str "empty prefix"))) ∧
      (c.Valid h).cfg = c ∧
      (∀ b, ((c.Valid h).heap b).Prefix = (h b).Prefix) ∧
      (∀ b, some b ∈ vhs.take k →
        ((c.Valid h).heap b).Root = if (h b).Root = "" then "." else (h b).Root) ∧
      (∀ b, some b ∉ vhs.take k → (c.Valid h).heap b = h b) ∧
      ((c.Valid h).heap = h ↔ ∀ b, some b ∈ vhs.take k → (h b).Root ≠ "")) := by
  constructor
  · rintro (ha | hv)
    · simp [Config.Valid, ha]
    · by_cases ha : c.Address = ""
      · simp [Config.Valid, ha]
      · simp [Config.Valid, ha, hv]
  · intro vhs k a ha hv hbefore hat hak
    obtain ⟨hsplit, hpre⟩ := split_at_first_empty vhs h k a hbefore hat
    have hloop : validLoop vhs h = (.returned (some errEmptyPrefix), normOn (vhs.take k) h) := by
      conv_lhs => rw [hsplit]
      exact validLoop_stop _ _ a h hpre hak
    have hout : (c.Valid h).out = (validLoop vhs h).1 := by simp [Config.Valid, ha, hv]
    have hcfg : (c.Valid h).cfg = c := by simp [Config.Valid, ha, hv]
    have hheap : (c.Valid h).heap = (validLoop vhs h).2 := by simp [Config.Valid, ha, hv]
    rw [hout, hcfg, hheap, hloop]
    refine ⟨rfl, rfl, ?_, ?_, ?_, normOn_eq_self_iff _ _⟩
    · intro b
      by_cases hb : some b ∈ vhs.take k
      · simp only [normOn, if_pos hb, defaultRoot_Prefix]
      · simp only [normOn, if_neg hb]
    · intro b hb
      simp only [normOn, if_pos hb, defaultRoot_Root]
    · intro b hb
      simp only [normOn, if_neg hb]

/-- C10 (witness): the amended statement applied to the config whose entries 0 and 2
are one host: the shared host, entered below k = 1, has its Root rewritten. -/
theorem Valid_failure_post_witness :
    cfgShared.Address ≠ "" ∧ (heapShared 1).Prefix = "" ∧
    ((cfgShared.Valid heapShared).heap 0).Root = "." :=
  ⟨by decide, by decide,
   ((Valid_failure_post cfgShared heapShared).2 [some 0, some 1, some 0] 1 1 (by decide) rfl
      (by
        intro i hi
        have hi0 : i = 0 := by omega
        subst hi0
        exact ⟨0, rfl, by decide⟩)
      rfl (by decide)).2.2.2.1 0 (by simp)⟩

/-! ### Claims on `Plugin.Init` -/

/-- C4 (the code at the failing inputs): when the "fileserver" section is present
and decodes without error to a config with an empty Address, to one with a nil
virtual-host list, or to one holding a host with an empty Prefix, `Config.Valid`
rejects the decoded config, yet `Plugin.Init` returns nil and stores that config: it
never calls `Config.Valid`. -/
theorem Init_accepts_invalid_config :
    ((cfgNoAddress.Valid heapConst).out
        = .returned (some (.E "static_validation" (.Str "empty address"))) ∧
      (freshPlugin.Init (sourceOf cfgNoAddress heapConst) namingLogger heapConst).err = none ∧
      (freshPlugin.Init (sourceOf cfgNoAddress heapConst) namingLogger heapConst).plugin.config
        = some cfgNoAddress) ∧
    ((cfgNilHosts.Valid heapConst).out
        = .returned (some (.E "static_validation" (.Str "no configuration to serve"))) ∧
      (freshPlugin.Init (sourceOf cfgNilHosts heapConst) namingLogger heapConst).err = none) ∧
    ((cfgTwoHosts.Valid heapTwoHosts).out
        = .returned (some (.E "static_validation" (.Str "empty prefix"))) ∧
      (freshPlugin.Init (sourceOf cfgTwoHosts heapTwoHosts) namingLogger heapConst).err
        = none) := by
  refine ⟨⟨by decide, by decide, by decide⟩, ⟨by decide, by decide⟩, by decide, by decide⟩

theorem E_op (op : String) (e : GoError) : (GoError.E op e).op = some op := by
  cases e <;> rfl

theorem E_kind (op : String) (e : GoError) : (GoError.E op e).kind = e.kind := by
  cases e <;> rfl

theorem E_err (op : String) (e : GoError) : (GoError.E op e).err = some e.clearKind := by
  cases e <;> rfl

/-- C5 (counterexample): the "fileserver" section is present and `UnmarshalKey`
fails with an `*errors.Error` of kind `Disabled`; `Init` returns `errors.E(op, err)`,
which takes the kind over: an error of kind `Disabled` tagged "file_server_init",
although `Has` returned true. -/
theorem Init_decode_error_of_kind_disabled :
    sourceDisabledDecode.Has "fileserver" = true ∧
    (sourceDisabledDecode.UnmarshalKey "fileserver" freshPlugin.config heapConst).err
      = some (.EKind "config_unmarshal" .Disabled) ∧
    (freshPlugin.Init sourceDisabledDecode namingLogger heapConst).err
      = some (.Wrap "file_server_init" .Disabled (.EKind "config_unmarshal" .Undefined)) ∧
    (GoError.Wrap "file_server_init" .Disabled (.EKind "config_unmarshal" .Undefined)).kind
      = .Disabled ∧
    (GoError.Wrap "file_server_init" .Disabled (.EKind "config_unmarshal" .Undefined)).op
      = some "file_server_init" := by
  refine ⟨rfl, rfl, by decide, rfl, rfl⟩

/-- C5 (amended): `Plugin.Init` returns an error of kind `Disabled` if and only if
the configuration source reports the "fileserver" section absent, or the section is
present and `UnmarshalKey` fails with an error of kind `Disabled`.  When the section
is absent the error is `errors.E(op, errors.Disabled)` with op "file_server_init",
the only interface call made is `Has` (so `UnmarshalKey` is not called) and the
plugin, its config and logger included, is unchanged.  When the section is present
and `UnmarshalKey` returns an error e, `Init` returns `errors.E(op, e)`: it is tagged
"file_server_init", wraps e (with the kind of the stored copy cleared) and has the
kind of e. -/
theorem Init_disabled_kind_iff (p : Plugin) (cfg : Configurer) (log : Logger) (h : Heap) :
    ((∃ e, (p.Init cfg log h).err = some e ∧ e.kind = .Disabled) ↔
      (cfg.Has "fileserver" = false ∨
        (cfg.Has "fileserver" = true ∧
          ∃ e0, (cfg.UnmarshalKey "fileserver" p.config h).err = some e0 ∧
            e0.kind = .Disabled))) ∧
    (cfg.Has "fileserver" = false →
      (p.Init cfg log h).err = some (.EKind "file_server_init" .Disabled) ∧
      (p.Init cfg log h).calls = [.Has "fileserver"] ∧
      (∀ n, Call.UnmarshalKey n ∉ (p.Init cfg log h).calls) ∧
      (p.Init cfg log h).plugin.config = p.config ∧
      (p.Init cfg log h).plugin.log = p.log ∧
      (p.Init cfg log h).plugin = p) ∧
    (∀ e, cfg.Has "fileserver" = true →
      (cfg.UnmarshalKey "fileserver" p.config h).err = some e →
      (p.Init cfg log h).err = some (.E "file_server_init" e) ∧
      (GoError.E "file_server_init" e).op = some "file_server_init" ∧
      (GoError.E "file_server_init" e).err = some e.clearKind ∧
      (GoError.E "file_server_init" e).kind = e.kind) := by
  refine ⟨?_, fun hh => ?_, fun e hh hu => ?_⟩
  · cases hh : cfg.Has "fileserver" with
    | false =>
      simp [Plugin.Init, pluginName, hh, GoError.kind]
    | true =>
      cases hu : (cfg.UnmarshalKey "fileserver" p.config h).err with
      | none => simp [Plugin.Init, pluginName, hh, hu]
      | some e0 => simp [Plugin.Init, pluginName, hh, hu, E_kind]
  · simp [Plugin.Init, pluginName, hh, initOp]
  · simp [Plugin.Init, pluginName, hh, hu, initOp, E_op, E_kind, E_err]

/-- C5 (witness): a source without the section leaves the plugin unchanged, and a
source whose section fails to decode yields the decode error wrapped under the op
"file_server_init". -/
theorem Init_disabled_kind_iff_witness :
    (sourceEmpty.Has "fileserver" = false ∧
      (freshPlugin.Init sourceEmpty namingLogger heapConst).plugin = freshPlugin) ∧
    (sourceBroken.Has "fileserver" = true ∧
      (freshPlugin.Init sourceBroken namingLogger heapConst).err
        = some (.E "file_server_init" (.Str "cannot decode"))) :=
  ⟨⟨rfl, ((Init_disabled_kind_iff freshPlugin sourceEmpty namingLogger heapConst).2.1 rfl).2.2.2.2.2⟩,
   ⟨rfl, ((Init_disabled_kind_iff freshPlugin sourceBroken namingLogger heapConst).2.2
      (.Str "cannot decode") rfl rfl).1⟩⟩

/-! ### Claims on `Plugin.Serve` -/

/-- C6 (the code at the failing input): on a validated two-host config `Serve`
starts the server; when `ListenAndServe` then returns `http.ErrServerClosed`, as it
does after `Stop` shut the server down, the goroutine sends that value on the error
channel: the normal shutdown is reported.  The server starts under the rules of every
Go release that accepts the patterns `/a/` and `/b/`. -/
theorem Serve_reports_server_closed :
    (cfgTwoHosts.Valid heapServed).out = .returned none ∧
    pluginReady.Serve muxRulesGo121 addExtOk heapServed = .started pluginServing [] ∧
    serveGoroutine pluginServing (some ErrServerClosed)
      = .ok ⟨{ pluginServing with locked := false },
          [⟨"info", "file server started", [("address", ":8080")]⟩],
          [.sentinel "http: Server closed"]⟩ ∧
    (∀ rules : MuxRules, rules [] "/a/" = true → rules ["/a/"] "/b/" = true →
      pluginReady.Serve rules addExtOk heapServed = .started pluginServing []) := by
  refine ⟨by decide, by decide, by decide, fun rules h1 h2 => ?_⟩
  simp [Plugin.Serve, pluginReady, pluginServing, cfgTwoHosts, registerMimeTypes,
    registerHosts, ServeMux.Handle, heapServed, h1, h2]

theorem Handle_ok_entries (rules : MuxRules) (mux mux1 : ServeMux) (q : String)
    (hd : Handler) (hok : mux.Handle rules q hd = .ok mux1) :
    q ∉ mux.entries.map Prod.fst ∧ mux1.entries = mux.entries ++ [(q, hd)] := by
  unfold ServeMux.Handle at hok
  split at hok
  · cases hok
  · split at hok
    · cases hok
    · rename_i hnot
      split at hok
      · cases hok
      · cases hok
        exact ⟨hnot, rfl⟩

/-- A completed registration loop met no prefix that was registered before it. -/
theorem registerHosts_ok_fresh (rules : MuxRules) (h : Heap) (l : List (Option Nat))
    (mux mux1 : ServeMux) (hok : registerHosts rules h l mux = .ok mux1) :
    ∀ a, some a ∈ l → (h a).Prefix ∉ mux.entries.map Prod.fst := by
  induction l generalizing mux with
  | nil => simp
  | cons x rest ih =>
    cases x with
    | none => simp [registerHosts] at hok
    | some a0 =>
      simp only [registerHosts] at hok
      cases hH : mux.Handle rules (h a0).Prefix ⟨(h a0).Prefix, (h a0).Root⟩ with
      | panic pn => rw [hH] at hok; cases hok
      | ok m1 =>
        rw [hH] at hok
        obtain ⟨hfresh, hent⟩ := Handle_ok_entries _ _ _ _ _ hH
        intro a ha
        rcases List.mem_cons.mp ha with hx | hx
        · cases hx
          exact hfresh
        · have := ih m1 hok a hx
          intro hmem
          apply this
          rw [hent]
          simp only [List.map_append, List.mem_append]
          exact Or.inl hmem

/-- A completed registration loop met pairwise different prefixes. -/
theorem registerHosts_ok_distinct (rules : MuxRules) (h : Heap) (l : List (Option Nat))
    (mux mux1 : ServeMux) (hok : registerHosts rules h l mux = .ok mux1)
    (i j a b : Nat) (hij : i < j)
    (hi : l[i]? = some (some a)) (hj : l[j]? = some (some b)) :
    (h a).Prefix ≠ (h b).Prefix := by
  induction l generalizing mux i j with
  | nil => simp at hi
  | cons x rest ih =>
    cases x with
    | none => simp [registerHosts] at hok
    | some a0 =>
      simp only [registerHosts] at hok
      cases hH : mux.Handle rules (h a0).Prefix ⟨(h a0).Prefix, (h a0).Root⟩ with
      | panic pn => rw [hH] at hok; cases hok
      | ok m1 =>
        rw [hH] at hok
        obtain ⟨_, hent⟩ := Handle_ok_entries _ _ _ _ _ hH
        obtain ⟨j1, rfl⟩ : ∃ j1, j = j1 + 1 := ⟨j - 1, by omega⟩
        rw [List.getElem?_cons_succ] at hj
        cases i with
        | zero =>
          rw [List.getElem?_cons_zero] at hi
          cases hi
          have hb : some b ∈ rest := List.mem_iff_getElem?.mpr ⟨j1, hj⟩
          have := registerHosts_ok_fresh rules h rest m1 mux1 hok b hb
          intro heq
          apply this
          rw [hent, ← heq]
          simp
        | succ i1 =>
          rw [List.getElem?_cons_succ] at hi
          exact ih m1 hok i1 j1 (by omega) hi hj

/-- C9 (counterexample): the config with the hosts `/p/` on `rootX` and `/p/` on
`rootY`, in this order, validates and is left unchanged by validation; `Serve` then
panics with the mutex still held and without a server, whatever the pattern rules of
the Go release are: no handler is bound and `rootY` does not win.  Under rules that
accept `/p/` the panic is the one of the second registration ("multiple
registrations for /p/"). -/
theorem Serve_repeated_prefix_example :
    cfgTwoHosts.hosts heapDup = some [some ⟨"/p/", "rootX"⟩, some ⟨"/p/", "rootY"⟩] ∧
    (cfgTwoHosts.Valid heapDup).out = .returned none ∧
    (cfgTwoHosts.Valid heapDup).cfg.hosts (cfgTwoHosts.Valid heapDup).heap
      = some [some ⟨"/p/", "rootX"⟩, some ⟨"/p/", "rootY"⟩] ∧
    pluginReady.Serve muxRulesGo121 addExtOk (cfgTwoHosts.Valid heapDup).heap
      = .panicked (.muxMultipleRegistrations "/p/")
          ⟨true, some cfgTwoHosts, some ⟨"fileserver"⟩, none⟩ [] ∧
    (∀ rules : MuxRules, ∃ pn, pluginReady.Serve rules addExtOk heapDup
      = .panicked pn ⟨true, some cfgTwoHosts, some ⟨"fileserver"⟩, none⟩ []) := by
  refine ⟨by decide, by decide, by decide, by decide, fun rules => ?_⟩
  cases hr : rules [] "/p/" with
  | false =>
    exact ⟨.muxRejected "/p/", by
      simp [Plugin.Serve, pluginReady, cfgTwoHosts, registerMimeTypes, registerHosts,
        ServeMux.Handle, heapDup, hr]⟩
  | true =>
    exact ⟨.muxMultipleRegistrations "/p/", by
      simp [Plugin.Serve, pluginReady, cfgTwoHosts, registerMimeTypes, registerHosts,
        ServeMux.Handle, heapDup, hr]⟩

/-- C9 (amended): for every config that `Config.Valid` accepts and that holds two
virtual hosts with the identical Prefix, `Serve` on a plugin with a free mutex
holding this config does not build the router, under the pattern rules of any Go
release: it panics with the mutex still held and the server pointer as it was before
the call, so no handler is bound to the prefix. -/
theorem Serve_duplicate_prefix_panics (rules : MuxRules)
    (addExt : String → String → Option GoError)
    (p : Plugin) (c : Config) (h : Heap) (vhs : List (Option Nat)) (i j a b : Nat)
    (hfree : p.locked = false) (hc : p.config = some c)
    (_hvalid : (c.Valid h).out = .returned none)
    (hv : c.VirtualHosts = some vhs) (hij : i < j)
    (hi : vhs[i]? = some (some a)) (hj : vhs[j]? = some (some b))
    (hsame : (h a).Prefix = (h b).Prefix) :
    ∃ pn logs, p.Serve rules addExt h = .panicked pn { p with locked := true } logs := by
  have hreg : ∀ mux1, registerHosts rules h vhs ⟨[]⟩ ≠ .ok mux1 := fun mux1 hok =>
    registerHosts_ok_distinct rules h vhs _ mux1 hok i j a b hij hi hj hsame
  simp only [Plugin.Serve, hfree, hc, hv, Option.getD_some]
  rcases hm : registerMimeTypes addExt p.log (c.MimeTypes.getD []) [] with ⟨logs, _ | pn⟩
  · cases hr : registerHosts rules h vhs ⟨[]⟩ with
    | ok mux1 => exact absurd hr (hreg mux1)
    | panic pn => exact ⟨pn, logs, by simp⟩
  · exact ⟨pn, logs, by simp⟩

/-- C9 (witness): the amended statement applied to the two `/p/` hosts. -/
theorem Serve_duplicate_prefix_panics_witness :
    (cfgTwoHosts.Valid heapDup).out = .returned none ∧
    (heapDup 0).Prefix = (heapDup 1).Prefix ∧
    ∃ pn logs, pluginReady.Serve muxRulesGo121 addExtOk heapDup
      = .panicked pn { pluginReady with locked := true } logs :=
  ⟨by decide, by decide,
   Serve_duplicate_prefix_panics muxRulesGo121 addExtOk pluginReady cfgTwoHosts heapDup
      [some 0, some 1] 0 1 0 1 rfl rfl (by decide) rfl (by decide) rfl rfl (by decide)⟩

/-! ### Claims on `Plugin.Stop` -/

theorem stopStart_inv (ctxErr : Option GoError) (mutexHeld appNil : Bool) :
    StopInv (stopStart ctxErr mutexHeld appNil) := by
  simp [StopInv, stopStart]

theorem stopStep_inv (s s1 : StopState) (ev : Event) (hinv : StopInv s)
    (hstep : stopStep s ev = some s1) : StopInv s1 := by
  obtain ⟨h1, h2, h3, h4⟩ := hinv
  cases ev with
  | ctxExpires e =>
    simp only [stopStep] at hstep
    split at hstep
    · rename_i hc
      cases hstep
      refine ⟨h1, h2, h3, fun r hr => ?_⟩
      obtain ⟨a, b, c⟩ := h4 r hr
      refine ⟨fun ht => ?_, b, c⟩
      have := a ht
      rw [hc.2] at this
      exact absurd this.2.symm this.1
    · cases hstep
  | mutexReleased =>
    simp only [stopStep] at hstep
    split at hstep
    · cases hstep
      exact ⟨h1, h2, h3, h4⟩
    · cases hstep
  | lock =>
    simp only [stopStep] at hstep
    split at hstep
    · rename_i hc
      cases hstep
      refine ⟨fun _ => h1 (by rw [hc.1]; decide), h2, h3, h4⟩
    · cases hstep
  | shutdownPanics =>
    simp only [stopStep] at hstep
    split at hstep
    · rename_i hc
      cases hstep
      refine ⟨fun _ => h1 (by rw [hc.1]; decide), h2, h3, h4⟩
    · cases hstep
  | shutdownReturns r =>
    simp only [stopStep] at hstep
    split at hstep
    · rename_i hc
      have hnone : s.shutdown = none := h1 (by rw [hc.1]; decide)
      have hret : ∀ r0, s.ret = some r0 → r0.taken = .ctxDone := by
        intro r0 hr0
        obtain ⟨_, b, c⟩ := h4 r0 hr0
        cases ht : r0.taken with
        | ctxDone => rfl
        | errCh =>
          obtain ⟨x, _, hx⟩ := b ht
          rw [hnone] at hx
          cases hx
        | endCh =>
          have := (c ht).2
          rw [hnone] at this
          cases this
      cases r with
      | some err =>
        cases hstep
        refine ⟨fun hne => absurd rfl hne, ?_, ?_, fun r0 hr0 => ?_⟩
        · intro x hx
          cases hx
          rfl
        · intro he
          have := h3 he
          rw [hnone] at this
          cases this
        · have ht := hret r0 hr0
          obtain ⟨a, _, _⟩ := h4 r0 hr0
          exact ⟨a, fun h5 => absurd (ht.symm.trans h5) (by decide), fun h5 => absurd (ht.symm.trans h5) (by decide)⟩
      | none =>
        cases hstep
        refine ⟨fun hne => absurd rfl hne, ?_, fun _ => rfl, fun r0 hr0 => ?_⟩
        · intro x hx
          have := h2 x hx
          rw [hnone] at this
          cases this
        · have ht := hret r0 hr0
          obtain ⟨a, _, _⟩ := h4 r0 hr0
          exact ⟨a, fun h5 => absurd (ht.symm.trans h5) (by decide), fun h5 => absurd (ht.symm.trans h5) (by decide)⟩
    · cases hstep
  | selectCtx =>
    simp only [stopStep] at hstep
    split at hstep
    · cases hc : s.ctxErr with
      | none => rw [hc] at hstep; cases hstep
      | some e =>
        rw [hc] at hstep
        cases hstep
        refine ⟨h1, h2, h3, fun r0 hr0 => ?_⟩
        cases hr0
        refine ⟨fun _ => ⟨?_, ?_⟩, ?_, ?_⟩
        · simp
        · rfl
        · intro h5
          cases h5
        · intro h5
          cases h5
    · cases hstep
  | selectErr =>
    simp only [stopStep] at hstep
    split at hstep
    · cases hc : s.errCh with
      | none => rw [hc] at hstep; cases hstep
      | some e =>
        rw [hc] at hstep
        cases hstep
        refine ⟨h1, ?_, h3, fun r0 hr0 => ?_⟩
        · intro x hx
          cases hx
        · cases hr0
          refine ⟨?_, fun _ => ⟨e, rfl, h2 e hc⟩, ?_⟩
          · intro h5
            cases h5
          · intro h5
            cases h5
    · cases hstep
  | selectEnd =>
    simp only [stopStep] at hstep
    split at hstep
    · rename_i hc
      cases hstep
      refine ⟨h1, h2, ?_, fun r0 hr0 => ?_⟩
      · intro h5
        cases h5
      · cases hr0
        refine ⟨?_, ?_, fun _ => ⟨rfl, h3 hc.2.2⟩⟩
        · intro h5
          cases h5
        · intro h5
          cases h5
    · cases hstep

theorem stopRun_inv (s s1 : StopState) (sched : List Event) (hinv : StopInv s)
    (hrun : stopRun s sched = some s1) : StopInv s1 := by
  induction sched generalizing s with
  | nil =>
    simp only [stopRun] at hrun
    cases hrun
    exact hinv
  | cons ev rest ih =>
    simp only [stopRun] at hrun
    cases hs : stopStep s ev with
    | none => rw [hs] at hrun; cases hrun
    | some s2 =>
      rw [hs] at hrun
      exact ih s2 (stopStep_inv s s2 ev hinv hs) hrun

/-- Once the context is done it stays done, with the same error. -/
theorem stopStep_ctxErr (s s1 : StopState) (ev : Event) (e : GoError)
    (hc : s.ctxErr = some e) (hstep : stopStep s ev = some s1) : s1.ctxErr = some e := by
  cases ev with
  | ctxExpires e1 => simp [stopStep, hc] at hstep
  | shutdownReturns r =>
    simp only [stopStep] at hstep
    split at hstep
    · cases r <;> (cases hstep; exact hc)
    · cases hstep
  | selectCtx =>
    simp only [stopStep, hc] at hstep
    split at hstep
    · cases hstep; rfl
    · cases hstep
  | selectErr =>
    simp only [stopStep] at hstep
    split at hstep
    · cases he : s.errCh with
      | none => rw [he] at hstep; cases hstep
      | some x => rw [he] at hstep; cases hstep; exact hc
    · cases hstep
  | mutexReleased | lock | shutdownPanics | selectEnd =>
    simp only [stopStep] at hstep
    split at hstep
    · cases hstep; exact hc
    · cases hstep

theorem stopRun_ctxErr (s s1 : StopState) (sched : List Event) (e : GoError)
    (hc : s.ctxErr = some e) (hrun : stopRun s sched = some s1) : s1.ctxErr = some e := by
  induction sched generalizing s with
  | nil =>
    simp only [stopRun] at hrun
    cases hrun
    exact hc
  | cons ev rest ih =>
    simp only [stopRun] at hrun
    cases hs : stopStep s ev with
    | none => rw [hs] at hrun; cases hrun
    | some s2 =>
      rw [hs] at hrun
      exact ih s2 (stopStep_ctxErr s s2 ev e hc hs) hrun

/-- C7 (counterexample): `Stop` is called with a context that is already cancelled;
the goroutine takes the mutex, `Shutdown` returns nil (no connection is open) and the
signal is put on `endCh` before the `select` chooses; both the `ctx.Done()` case and
the `endCh` case are then ready, and when the `select` takes the `endCh` case `Stop`
returns nil. -/
theorem Stop_returns_nil_after_cancel :
    Option.map StopState.ret
        (pluginRunning.Stop (some ctxCanceled) [.lock, .shutdownReturns none, .selectEnd])
      = some (some ⟨.endCh, none⟩) ∧
    Option.map StopState.ctxErr
        (pluginRunning.Stop (some ctxCanceled) [.lock, .shutdownReturns none, .selectEnd])
      = some (some (.sentinel "context canceled")) := by
  refine ⟨by decide, by decide⟩

/-- C7 (amended): for every call `Stop(ctx)` in which ctx is already done when
`Stop` is called, with `ctx.Err()` equal to e: at every moment before `Stop` has
returned the `select` can take the `ctx.Done()` case and return e, so `Stop` need not
wait for the shutdown; whatever `Stop` returns is either e or the result that
`Shutdown` has returned (its error, or nil after a clean shutdown); and when
`Shutdown` has not returned, the value returned is e. -/
theorem Stop_cancelled_ctx (p : Plugin) (e : GoError) (sched : List Event) (s : StopState)
    (hrun : p.Stop (some e) sched = some s) :
    s.ctxErr = some e ∧
    (s.ret = none → s.pc ≠ .panicked →
      stopStep s .selectCtx = some { s with ret := some ⟨.ctxDone, some e⟩ }) ∧
    (∀ r, s.ret = some r → r.value = some e ∨ s.shutdown = some r.value) ∧
    (s.shutdown = none → ∀ r, s.ret = some r → r = ⟨.ctxDone, some e⟩) := by
  have hinv := stopRun_inv _ s sched (stopStart_inv _ _ _) hrun
  have hctx : s.ctxErr = some e := stopRun_ctxErr _ s sched e rfl hrun
  obtain ⟨_, _, _, h4⟩ := hinv
  refine ⟨hctx, fun hr hp => ?_, fun r hr => ?_, fun hs r hr => ?_⟩
  · simp [stopStep, hr, hp, hctx]
  · obtain ⟨a, b, c⟩ := h4 r hr
    cases ht : r.taken with
    | ctxDone =>
      left
      rw [← (a ht).2, hctx]
    | errCh =>
      right
      obtain ⟨x, hx, hsx⟩ := b ht
      rw [hsx, hx]
    | endCh =>
      right
      rw [(c ht).2, (c ht).1]
  · obtain ⟨a, b, c⟩ := h4 r hr
    cases ht : r.taken with
    | ctxDone =>
      have hv : r.value = some e := by rw [← (a ht).2, hctx]
      cases r
      simp_all
    | errCh =>
      obtain ⟨x, _, hsx⟩ := b ht
      rw [hs] at hsx
      cases hsx
    | endCh =>
      have := (c ht).2
      rw [hs] at this
      cases this

/-- C7 (witness): with a cancelled context and `Shutdown` still running, the
`select` takes the `ctx.Done()` case and `Stop` returns the cancellation error. -/
theorem Stop_cancelled_ctx_witness :
    pluginRunning.Stop (some ctxCanceled) [.lock, .selectCtx]
      = some ⟨some ctxCanceled, false, false, .shuttingDown, none, none, false,
          some ⟨.ctxDone, some ctxCanceled⟩⟩ ∧
    (⟨.ctxDone, some ctxCanceled⟩ : StopReturn) = ⟨.ctxDone, some ctxCanceled⟩ :=
  ⟨by decide,
   (Stop_cancelled_ctx pluginRunning ctxCanceled [.lock, .selectCtx]
      ⟨some ctxCanceled, false, false, .shuttingDown, none, none, false,
        some ⟨.ctxDone, some ctxCanceled⟩⟩ (by decide)).2.2.2 rfl _ rfl⟩

/-- C8: in every execution of `Stop`, once it has returned: the value returned is
nil only if `Shutdown` has returned nil; if the value was taken from `errCh` it is the
non-nil error that `Shutdown` returned; if the `ctx.Done()` case was taken then ctx was
done and the value is the non-nil `ctx.Err()`; and if the `endCh` case was taken then
`Shutdown` returned nil. -/
theorem Stop_return_sound (p : Plugin) (ctxErr : Option GoError) (sched : List Event)
    (s : StopState) (r : StopReturn)
    (hrun : p.Stop ctxErr sched = some s) (hret : s.ret = some r) :
    (r.value = none → s.shutdown = some none) ∧
    (r.taken = .errCh → ∃ x, r.value = some x ∧ s.shutdown = some (some x)) ∧
    (r.taken = .ctxDone → s.ctxErr ≠ none ∧ r.value = s.ctxErr) ∧
    (r.taken = .endCh → r.value = none ∧ s.shutdown = some none) := by
  obtain ⟨_, _, _, h4⟩ := stopRun_inv _ s sched (stopStart_inv _ _ _) hrun
  obtain ⟨a, b, c⟩ := h4 r hret
  refine ⟨fun hv => ?_, b, fun ht => ?_, c⟩
  · cases ht : r.taken with
    | ctxDone => exact absurd hv (a ht).1
    | errCh =>
      obtain ⟨x, hx, _⟩ := b ht
      rw [hv] at hx
      cases hx
    | endCh => exact (c ht).2
  · obtain ⟨hne, heq⟩ := a ht
    exact ⟨by rw [heq]; exact hne, heq.symm⟩

/-- C8 (witness): `Shutdown` fails, the context expires afterwards, and the `select`
takes the `errCh` case: the value returned is the error of `Shutdown`. -/
theorem Stop_return_sound_witness :
    pluginRunning.Stop none
        [.lock, .shutdownReturns (some (.Str "close failed")), .ctxExpires ctxCanceled,
          .selectErr]
      = some ⟨some ctxCanceled, false, false, .finished,
          some (some (.Str "close failed")), none, false,
          some ⟨.errCh, some (.Str "close failed")⟩⟩ ∧
    ∃ x, (some (GoError.Str "close failed")) = some x ∧
      some (some (GoError.Str "close failed")) = some (some x) :=
  ⟨by decide,
   (Stop_return_sound pluginRunning none
      [.lock, .shutdownReturns (some (.Str "close failed")), .ctxExpires ctxCanceled,
        .selectErr]
      ⟨some ctxCanceled, false, false, .finished,
        some (some (.Str "close failed")), none, false,
        some ⟨.errCh, some (.Str "close failed")⟩⟩
      ⟨.errCh, some (.Str "close failed")⟩ (by decide) rfl).2.1 rfl⟩

end Fileserver
